import Mathlib

/-!
Shallow embedding of the Timonel I2C bootloader, version 0.7
(`tml-bootloader-v0.7-2018-09-09.c`), together with proofs about its
command dispatcher (`RequestEvent`), flash writer (`FlashPage`, `FlashRaw`,
`DeleteFlash`), trampoline calculator (`CalculateTrampoline`) and
supervisor loop (`main`).

Machine integers are modelled as `Nat` with explicit reduction modulo
`2 ^ 8` / `2 ^ 16` where the C code's `byte` / `word` arithmetic wraps.
The two global byte arrays (`pageBuffer` and the flash memory itself) are
modelled as total functions `Nat → Nat`; physical flash-controller
operations (`boot_page_erase` / `boot_page_write`) are additionally
recorded in an operation log so that statements about which addresses the
hardware is asked to touch can be made directly.
-/

namespace Timonel

/-- `PAGE_SIZE` (SPM flash memory page size) from the source. -/
def pageSize : Nat := 64

/-- `RXDATASIZE` (RX data size for the WRITPAGE command) from the source. -/
def RXDATASIZE : Nat := 8

/-- `TOGGLETIME` (LED toggle delay before initialization) from the source. -/
def TOGGLETIME : Nat := 0xFFFF

/-- `I2CDLYTIME` (main loop passes allowed for I2C replies) from the source. -/
def I2CDLYTIME : Nat := 0x7FFF

/-- `CYCLESTOEXIT` (toggle periods before exiting to the app) from the source. -/
def CYCLESTOEXIT : Nat := 80

/-- `TIMONEL_VER_MJR` from the source. -/
def TIMONEL_VER_MJR : Nat := 0

/-- `TIMONEL_VER_MNR` from the source. -/
def TIMONEL_VER_MNR : Nat := 7

/-- Status register bit `SR_INIT_1` (init handshake step 1). -/
def SR_INIT_1 : Nat := 0

/-- Status register bit `SR_INIT_2` (init handshake step 2). -/
def SR_INIT_2 : Nat := 1

/-- Status register bit `SR_DEL_FLASH` (delete flash requested). -/
def SR_DEL_FLASH : Nat := 2

/-- Status register bit `SR_APP_READY` (application flashed OK). -/
def SR_APP_READY : Nat := 3

/-- Status register bit `SR_EXIT_TML` (exit Timonel and run application). -/
def SR_EXIT_TML : Nat := 4

/-- Modelled from the spec: the numeric value of the `GETTMNLV` opcode byte is
defined in `nb-libs/nb-i2c-cmd.h`, which is not among the sources; the spec only
requires the opcodes to be distinct bytes known a priori to both ends, so a
concrete distinct byte value is fixed here. -/
def GETTMNLV : Nat := 0x81

/-- Modelled from the spec: numeric value of the `EXITTMNL` opcode byte
(see `GETTMNLV`). -/
def EXITTMNL : Nat := 0x82

/-- Modelled from the spec: numeric value of the `DELFLASH` opcode byte
(see `GETTMNLV`). -/
def DELFLASH : Nat := 0x83

/-- Modelled from the spec: numeric value of the `STPGADDR` opcode byte
(see `GETTMNLV`). -/
def STPGADDR : Nat := 0x84

/-- Modelled from the spec: numeric value of the `WRITPAGE` opcode byte
(see `GETTMNLV`). -/
def WRITPAGE : Nat := 0x85

/-- Modelled from the spec: numeric value of the `INITTINY` opcode byte
(see `GETTMNLV`). -/
def INITTINY : Nat := 0x86

/-- Modelled from the spec: numeric value of the `UNKNOWNC` sentinel byte
answered to unrecognized opcodes (see `GETTMNLV`). -/
def UNKNOWNC : Nat := 0xFF

/-- Pointwise update of a byte array modelled as a total function. -/
def upd (f : Nat → Nat) (i v : Nat) : Nat → Nat :=
  fun j => if j = i then v else f j

/-- A physical flash-controller operation as issued by the code:
`boot_page_erase(addr)` or `boot_page_write(addr)` (the latter concluding
the `boot_page_fill` sequence of `FlashRaw`). -/
inductive FlashOp where
  | erase (addr : Nat)
  | write (addr : Nat)
deriving DecidableEq

/-- The address an operation is issued at. -/
def FlashOp.addr : FlashOp → Nat
  | .erase a => a
  | .write a => a

/-- The global mutable state of the bootloader: the status register, the page
buffer with its fill index, the flash page address, the trampoline bytes, the
three supervisor-loop timers, plus the device's flash memory, the log of issued
flash-controller operations and a flag recording that control was transferred
(`RunApplication`, which never returns). -/
structure TmlState where
  statusRegister : Nat
  pageBuffer : Nat → Nat
  flashPageAddr : Nat
  pageIX : Nat
  tplJumpLowByte : Nat
  tplJumpHighByte : Nat
  ledToggleTimer : Nat
  i2cDly : Nat
  exitDly : Nat
  flash : Nat → Nat
  log : List FlashOp
  handedOff : Bool

/-- `pageAddress &= ~(PAGE_SIZE - 1)` on a 16-bit word: clear the low 6 address
bits, i.e. round down to the containing page's base address. -/
def pageBase (a : Nat) : Nat := a / pageSize * pageSize

/-- C bitwise complement `~x` on a (signed) `int`. -/
def cNot (x : Int) : Int := -x - 1

/-- `CalculateTrampoline(applJumpLowByte, applJumpHighByte)`: from the
application's original reset-vector bytes, compute the two bytes of the
relative-jump instruction to be placed at the end of the trampoline page.
`TS` is the build-time constant `TIMONEL_START`.  The C `>> 1` on the
(possibly negative) `int` value of `~(TIMONEL_START - ...)` is an arithmetic
shift, i.e. flooring division by 2 (`Int.fdiv`); the assignment to the
`word jumpOffset` truncates modulo `2 ^ 16`. -/
def calculateTrampoline (TS lo hi : Nat) : Nat × Nat :=
  let t : Int := (((((hi <<< 8) + lo + 1) &&& 0xFFF) <<< 1 : Nat) : Int)
  let j0 : Int := (cNot ((TS : Int) - t)).fdiv 2
  let j : Nat := ((j0 % 65536).toNat + 1) % 65536
  (j &&& 0xFF, ((j &&& 0xF00) >>> 8) + 0xC0)

/-- `FixResetVector()`: overwrite the first two page-buffer bytes with the
bootloader's own reset vector `0xC000 + TIMONEL_START / 2 - 1` (low byte
first); the `(byte)` casts truncate modulo `2 ^ 8`. -/
def fixResetVector (TS : Nat) (pb : Nat → Nat) : Nat → Nat :=
  upd (upd pb 0 ((0xC000 + TS / 2 - 1) &&& 0xFF)) 1 (((0xC000 + TS / 2 - 1) >>> 8) % 256)

/-- `ClearPageBuffer()`: fill the page buffer with `0xFF`. -/
def clearPageBuffer (pb : Nat → Nat) : Nat → Nat :=
  fun i => if i < pageSize then 0xFF else pb i

/-- Effect on flash memory of `FlashRaw(pageAddress)`: the page-buffer bytes
are staged at word offsets `(pageAddress + i) % PAGE_SIZE` of the hardware's
temporary page buffer and committed to the page containing `pageAddress`
(every call site passes a page-aligned address, for which byte `i` of the
page buffer lands at `pageBase pageAddress + i`). -/
def flashRawF (pb : Nat → Nat) (pageAddress : Nat) (flash : Nat → Nat) : Nat → Nat :=
  fun a =>
    if pageBase a = pageBase pageAddress then
      pb ((a - pageBase a + (pageSize - pageAddress % pageSize)) % pageSize)
    else flash a

/-- `FlashRaw(pageAddress)` as a state transformer: update the flash contents
and record the issued `boot_page_write`. -/
def flashRawS (pageAddress : Nat) (s : TmlState) : TmlState :=
  { s with flash := flashRawF s.pageBuffer pageAddress s.flash,
           log := s.log ++ [FlashOp.write pageAddress] }

/-- `boot_page_erase(addr)` as a state transformer: the page containing `addr`
becomes `0xFF`, and the issued erase is recorded. -/
def erasePageS (addr : Nat) (s : TmlState) : TmlState :=
  { s with flash := fun a => if pageBase a = pageBase addr then 0xFF else s.flash a,
           log := s.log ++ [FlashOp.erase addr] }

/-- `CreateTrampoline()`: if `flashPageAddr` is below the trampoline page,
point it there, fill the buffer with `0xFF` except its last two bytes, which
receive the trampoline jump bytes, and write it out. -/
def createTrampoline (TS : Nat) (s : TmlState) : TmlState :=
  if s.flashPageAddr < TS - pageSize then
    let s1 := { s with flashPageAddr := TS - pageSize,
                       pageBuffer := fun i => if i < pageSize - 2 then 0xFF else s.pageBuffer i }
    let pb2 := upd (upd s1.pageBuffer 62 s1.tplJumpLowByte) 63 s1.tplJumpHighByte
    let s2 := { s1 with pageBuffer := pb2 }
    flashRawS s2.flashPageAddr s2
  else s

/-- `FlashPage(pageAddress)`: mask the address down to its page base; on page 0
compute the trampoline bytes from the buffered reset vector and substitute the
bootloader's reset vector; on the trampoline page patch in the trampoline
bytes; discard attempts to flash the bootloader region (`>= TIMONEL_START`);
otherwise write the buffer, and after a page-0 write create the trampoline
page and reset `flashPageAddr` to `RESET_PAGE` (0). -/
def flashPage (TS : Nat) (s : TmlState) (pageAddress0 : Nat) : TmlState :=
  let pageAddress := pageBase pageAddress0
  let s1 :=
    if pageAddress = 0 then
      let tpl := calculateTrampoline TS (s.pageBuffer 0) (s.pageBuffer 1)
      { s with tplJumpLowByte := tpl.1, tplJumpHighByte := tpl.2,
               pageBuffer := fixResetVector TS s.pageBuffer }
    else s
  let s2 :=
    if pageAddress = TS - pageSize then
      let pb2 := upd (upd s1.pageBuffer 62 s1.tplJumpLowByte) 63 s1.tplJumpHighByte
      { s1 with pageBuffer := pb2 }
    else s1
  if TS ≤ pageAddress then s2
  else
    let s3 := flashRawS pageAddress s2
    if pageAddress = 0 then
      let s4 := createTrampoline TS s3
      { s4 with flashPageAddr := 0 }
    else s3

/-- The `while (address < TIMONEL_START)` erase loop of `DeleteFlash`, with an
explicit fuel argument (any fuel `≥ TIMONEL_START / PAGE_SIZE` lets the loop
run to its exit condition). -/
def eraseLoop (TS : Nat) : Nat → Nat → TmlState → TmlState
  | 0, _, s => s
  | fuel + 1, address, s =>
    if address < TS then eraseLoop TS fuel (address + pageSize) (erasePageS address s)
    else s

/-- `DeleteFlash()`: fill the buffer with `0xFF`, restore the bootloader reset
vector in it, erase page 0, rewrite page 0 from the buffer, call
`FlashPage(PAGE_SIZE)`, then erase every page from `PAGE_SIZE` up to (not
including) `TIMONEL_START`. -/
def deleteFlash (TS : Nat) (s : TmlState) : TmlState :=
  let s1 := { s with pageBuffer := clearPageBuffer s.pageBuffer }
  let s2 := { s1 with pageBuffer := fixResetVector TS s1.pageBuffer }
  let s3 := erasePageS 0 s2
  let s4 := flashRawS 0 s3
  let s5 := flashPage TS s4 pageSize
  eraseLoop TS (TS / pageSize) pageSize s5

/-- Byte `i` of the received command frame.  `ReceiveEvent` copies the frame
bytes into the global `command` array; frames of the documented fixed length
are modelled as lists of bytes, positions beyond the frame reading as 0. -/
def cmdAt (cmd : List Nat) (i : Nat) : Nat := cmd.getD i 0

/-- One iteration of the `WRITPAGE` receive loop
(`pageBuffer[pageIX] = command[i]; reply[1] += command[i]; pageIX++;` for
`i = k + 1`), acting on (page buffer, fill index, checksum accumulator);
`pageIX` and `reply[1]` are bytes and wrap modulo `2 ^ 8`. -/
def writChunkStep (c : Nat → Nat) (st : (Nat → Nat) × Nat × Nat) (k : Nat) :
    (Nat → Nat) × Nat × Nat :=
  (upd st.1 st.2.1 (c (k + 1) % 256), (st.2.1 + 1) % 256, (st.2.2 + c (k + 1)) % 256)

/-- `RequestEvent()`: decode `command[0]` and produce the state mutation and
the reply bytes transmitted via `UsiTwiTransmitByte`.  The acknowledgement
byte is the bitwise complement `~command[0]` on a byte.  `TS` is
`TIMONEL_START` (reported in the `GETTMNLV` reply). -/
def requestEvent (TS : Nat) (s : TmlState) (cmd : List Nat) : TmlState × List Nat :=
  let c := cmdAt cmd
  let opCodeAck := 255 - c 0 % 256
  if c 0 = GETTMNLV then
    ({ s with statusRegister := s.statusRegister ||| (1 <<< SR_INIT_2) },
     [opCodeAck, 78, 66, 84, TIMONEL_VER_MJR, TIMONEL_VER_MNR,
      (TS &&& 0xFF00) >>> 8, TS &&& 0xFF])
  else if c 0 = EXITTMNL then
    ({ s with statusRegister := s.statusRegister ||| (1 <<< SR_EXIT_TML) }, [opCodeAck])
  else if c 0 = DELFLASH then
    ({ s with statusRegister := s.statusRegister ||| (1 <<< SR_DEL_FLASH) }, [opCodeAck])
  else if c 0 = STPGADDR then
    ({ s with flashPageAddr := ((c 1 <<< 8) + c 2) % 65536 },
     [opCodeAck, (c 1 + c 2) % 256])
  else if c 0 = WRITPAGE then
    let r := (List.range RXDATASIZE).foldl (writChunkStep c) (s.pageBuffer, s.pageIX, 0)
    let sr1 :=
      if r.2.2 ≠ c (RXDATASIZE + 1) then
        (s.statusRegister &&& 0xF7) ||| (1 <<< SR_DEL_FLASH)
      else s.statusRegister
    ({ s with pageBuffer := r.1, pageIX := r.2.1, statusRegister := sr1 },
     [opCodeAck, r.2.2])
  else if c 0 = INITTINY then
    ({ s with statusRegister := s.statusRegister ||| (1 <<< SR_INIT_1) }, [opCodeAck])
  else
    (s, List.replicate cmd.length UNKNOWNC)

/-- The commit check concluding the `if (i2cDly-- <= 0)` block of the main
loop (lines 174 to 183 of the source): when the page buffer is full, commit
it via `FlashPage(flashPageAddr)`, advance `flashPageAddr` by one page (a
16-bit word addition) and reset the fill index, then re-arm the I2C delay. -/
def commitCheck (TS : Nat) (s : TmlState) : TmlState :=
  let s2 :=
    if s.pageIX = pageSize then
      let s2a := flashPage TS s s.flashPageAddr
      { s2a with flashPageAddr := (s2a.flashPageAddr + pageSize) % 65536, pageIX := 0 }
    else s
  { s2 with i2cDly := I2CDLYTIME }

/-- The body of the `if (i2cDly-- <= 0)` block of the main loop (lines
158 to 183 of the source): evaluate the exit / delete / commit conditions on
the status register and the page buffer.  `RunApplication()` never returns,
so once it is called (`handedOff`) the remaining statements do not execute. -/
def tickBody (TS : Nat) (s : TmlState) : TmlState :=
  if s.statusRegister &&& ((1 <<< SR_EXIT_TML) + (1 <<< SR_APP_READY)) =
      ((1 <<< SR_EXIT_TML) + (1 <<< SR_APP_READY)) then
    { s with handedOff := true }
  else
    let s1 :=
      if s.statusRegister &&& ((1 <<< SR_EXIT_TML) + (1 <<< SR_APP_READY)) =
          (1 <<< SR_EXIT_TML) then deleteFlash TS s
      else s
    if s1.statusRegister &&& (1 <<< SR_DEL_FLASH) = (1 <<< SR_DEL_FLASH) then
      { deleteFlash TS s1 with handedOff := true }
    else
      commitCheck TS s1

/-- The phase-dependent first half of one main-loop pass: while not both init
flags are set, run the LED-toggle timer and the exit countdown
(`RunApplication` when the countdown, a byte, post-decrements from 0); once
initialized, run the `i2cDly` countdown (a 16-bit word, post-decrementing and
re-armed to `I2CDLYTIME` by the tick body) and, when it fires, the tick body. -/
def phasePass (TS : Nat) (s : TmlState) : TmlState :=
  if s.statusRegister &&& ((1 <<< SR_INIT_1) + (1 <<< SR_INIT_2)) =
      ((1 <<< SR_INIT_1) + (1 <<< SR_INIT_2)) then
    if s.i2cDly = 0 then tickBody TS { s with i2cDly := 65535 }
    else { s with i2cDly := s.i2cDly - 1 }
  else
    if s.ledToggleTimer ≥ TOGGLETIME then
      if s.exitDly = 0 then
        { s with ledToggleTimer := 0, exitDly := 255, handedOff := true }
      else { s with ledToggleTimer := 0, exitDly := s.exitDly - 1 }
    else { s with ledToggleTimer := (s.ledToggleTimer + 1) % 65536 }

/-- One pass of the `for (;;)` main loop.  The bus transaction layer
(`nb-usitwisl-if.h`) is not among the sources; following the spec's interface
description it is compressed to the ability of a pass to deliver at most one
complete command frame (`ReceiveEvent` followed by `RequestEvent`, whose reply
bytes the master collects).  After `RunApplication` the bootloader no longer
executes. -/
def step (TS : Nat) (rx : Option (List Nat)) (s : TmlState) : TmlState :=
  if s.handedOff then s
  else
    let s1 := phasePass TS s
    if s1.handedOff then s1
    else
      match rx with
      | none => s1
      | some cmd => (requestEvent TS s1 cmd).1

/-- The state after the setup block of `main`: `ApplicationReady` set, all
other flags clear, timers armed, `flashPageAddr = 0`, empty page index, and
the device's flash holding `flash0` (`pageBuffer` is a zero-initialized
global array). -/
def initState (flash0 : Nat → Nat) : TmlState where
  statusRegister := 1 <<< SR_APP_READY
  pageBuffer := fun _ => 0
  flashPageAddr := 0
  pageIX := 0
  tplJumpLowByte := 0
  tplJumpHighByte := 0
  ledToggleTimer := 0
  i2cDly := I2CDLYTIME
  exitDly := CYCLESTOEXIT
  flash := flash0
  log := []
  handedOff := false

/-- `k` consecutive main-loop passes with no bus activity. -/
def runNone (TS : Nat) : Nat → TmlState → TmlState
  | 0, s => s
  | k + 1, s => runNone TS k (step TS none s)

/-- The states the bootloader can reach from power-on with initial flash
contents `flash0`, under an arbitrary sequence of bus frames. -/
inductive Reachable (TS : Nat) (flash0 : Nat → Nat) : TmlState → Prop where
  | init : Reachable TS flash0 (initState flash0)
  | next (rx : Option (List Nat)) {s : TmlState} :
      Reachable TS flash0 s → Reachable TS flash0 (step TS rx s)

/-- Modelled from the spec: the inverse relative-jump decoding.  An AVR `rjmp`
instruction with bytes (lo, hi) sitting at word address `slotWord` jumps to
word address `slotWord + 1 + k` where `k` is the instruction word's low 12
bits, interpreted modulo the device's 4096-word (8 KiB) program memory (the
signed two's-complement displacement coincides with the unsigned one modulo
`2 ^ 12`).  The result is returned as a byte address. -/
def decodeRjmpAt (slotWord lo hi : Nat) : Nat :=
  2 * ((slotWord + 1 + (((hi <<< 8) + lo) &&& 0xFFF)) % 4096)

/-- All-`0xFF` (erased) initial flash contents, used in concrete scenarios. -/
def flashFF : Nat → Nat := fun _ => 0xFF

/-- Initial flash contents holding a valid relative jump (`0xC005`) in the
final instruction slot of the trampoline page for `TIMONEL_START = 6400`
(bytes 6398 and 6399), 0 elsewhere. -/
def flashTpl : Nat → Nat :=
  fun a => if a = 6398 then 0x05 else if a = 6399 then 0xC0 else 0

/-- A well-formed `WRITPAGE` frame: eight zero data bytes, matching checksum 0. -/
def writFrame0 : List Nat := [WRITPAGE, 0, 0, 0, 0, 0, 0, 0, 0, 0]

/-- A corrupt `WRITPAGE` frame: data bytes summing to 1, trailing checksum 0. -/
def writFrameBad : List Nat := [WRITPAGE, 1, 0, 0, 0, 0, 0, 0, 0, 0]

/-- The reachable state after power-on (erased flash) followed by one pass
delivering a single `INITTINY` frame. -/
def sInit1 : TmlState := step 6400 (some [INITTINY]) (initState flashFF)

/-- The reachable state after a corrupt `WRITPAGE` frame followed by an
`EXITTMNL` frame: `ExitRequested` set, `ApplicationReady` cleared (and
`DeleteFlashRequested` set by the same checksum failure). -/
def sExitNoApp : TmlState :=
  step 6400 (some [EXITTMNL]) (step 6400 (some writFrameBad) (initState flashFF))

/-- The reachable state after `INITTINY`, `GETTMNLV`, `SetPageAddress(0, 3)`
and eight well-formed `WRITPAGE` frames: initialized, page buffer full
(`pageIX = 64`), `flashPageAddr = 3` (unaligned, inside page 0). -/
def preC6 : TmlState :=
  step 6400 (some writFrame0) (step 6400 (some writFrame0) (step 6400 (some writFrame0)
    (step 6400 (some writFrame0) (step 6400 (some writFrame0) (step 6400 (some writFrame0)
      (step 6400 (some writFrame0) (step 6400 (some writFrame0)
        (step 6400 (some [STPGADDR, 0, 3]) (step 6400 (some [GETTMNLV])
          (step 6400 (some [INITTINY]) (initState flashFF)))))))))))

/-- The reachable state after nine consecutive passes each delivering a
well-formed `WRITPAGE` frame (no intervening commit). -/
def nineW : TmlState :=
  step 6400 (some writFrame0) (step 6400 (some writFrame0) (step 6400 (some writFrame0)
    (step 6400 (some writFrame0) (step 6400 (some writFrame0) (step 6400 (some writFrame0)
      (step 6400 (some writFrame0) (step 6400 (some writFrame0)
        (step 6400 (some writFrame0) (initState flashFF)))))))))

/-- The state `sInit1` written out: after the `INITTINY` pass the status
register is 9 (`SR_APP_READY ||| SR_INIT_1`), the LED toggle timer has run
once, and everything else is as at power-on. -/
def sAfterInit1 : TmlState where
  statusRegister := 9
  pageBuffer := fun _ => 0
  flashPageAddr := 0
  pageIX := 0
  tplJumpLowByte := 0
  tplJumpHighByte := 0
  ledToggleTimer := 1
  i2cDly := 32767
  exitDly := 80
  flash := flashFF
  log := []
  handedOff := false

/-- An initialized state (`statusRegister = 11`) with a full page buffer and
`flashPageAddr = 192`, about to commit page 3. -/
def sCommit3 : TmlState :=
  { sAfterInit1 with statusRegister := 11, pageIX := 64, flashPageAddr := 192 }

/-- Masking with a contiguous run of `j` one bits starting at bit `k`
extracts the corresponding bit field. -/
theorem and_mask_shift (n k j : Nat) :
    n &&& ((2 ^ j - 1) <<< k) = n / 2 ^ k % 2 ^ j * 2 ^ k := by
  apply Nat.eq_of_testBit_eq
  intro i
  rw [Nat.testBit_and, Nat.testBit_shiftLeft, Nat.testBit_two_pow_sub_one,
    Nat.mul_comm, Nat.testBit_mul_pow_two]
  by_cases hik : k ≤ i
  · have hik' : k + (i - k) = i := by omega
    simp only [ge_iff_le, hik, decide_True, Bool.true_and, Nat.testBit_mod_two_pow,
      ← Nat.shiftRight_eq_div_pow, Nat.testBit_shiftRight, hik']
    exact Bool.and_comm _ _
  · simp [hik]

/-- Masking a natural number with `0xFF` is reduction modulo `2 ^ 8`. -/
theorem and_255 (n : Nat) : n &&& 255 = n % 256 := by
  have h := Nat.and_pow_two_sub_one_eq_mod n 8
  norm_num at h
  exact h

/-- Masking a natural number with `0xFFF` is reduction modulo `2 ^ 12`. -/
theorem and_4095 (n : Nat) : n &&& 4095 = n % 4096 := by
  have h := Nat.and_pow_two_sub_one_eq_mod n 12
  norm_num at h
  exact h

/-- Masking with `0xFF00` and shifting right by 8 extracts the second byte. -/
theorem and_ff00_shift (n : Nat) : (n &&& 0xFF00) >>> 8 = n / 256 % 256 := by
  have h := and_mask_shift n 8 8
  rw [Nat.shiftLeft_eq] at h
  norm_num at h
  rw [h, Nat.shiftRight_eq_div_pow]
  norm_num

/-- Masking with `0xF00` and shifting right by 8 extracts bits 8 to 11. -/
theorem and_f00_shift (n : Nat) : (n &&& 0xF00) >>> 8 = n / 256 % 16 := by
  have h := and_mask_shift n 8 4
  rw [Nat.shiftLeft_eq] at h
  norm_num at h
  rw [h, Nat.shiftRight_eq_div_pow]
  norm_num

/-- Masking with `24 = 0b11000` extracts bits 3 and 4. -/
theorem and_24 (n : Nat) : n &&& 24 = n / 8 % 4 * 8 := by
  have h := and_mask_shift n 3 2
  rw [Nat.shiftLeft_eq] at h
  norm_num at h
  exact h

/-- Masking with `4 = 0b100` extracts bit 2. -/
theorem and_4 (n : Nat) : n &&& 4 = n / 4 % 2 * 4 := by
  have h := and_mask_shift n 2 1
  rw [Nat.shiftLeft_eq] at h
  norm_num at h
  exact h

/-- Masking with `3 = 0b11` extracts bits 0 and 1. -/
theorem and_3 (n : Nat) : n &&& 3 = n % 4 := by
  have h := Nat.and_pow_two_sub_one_eq_mod n 2
  norm_num at h
  exact h

/-- C4: for every valid reset-vector byte pair, decoding the two bytes
produced by `CalculateTrampoline` as a relative jump located at the trampoline
page's final instruction slot (byte address `TIMONEL_START - 2`) yields the
same jump target as decoding the original reset-vector bytes at address 0
(round-trip law); moreover the produced high nibble is the `rjmp` opcode. -/
theorem tml_C4_trampoline_roundtrip (TS lo hi : Nat) (hlo : lo < 256) (hhi : hi < 256)
    (h64 : TS % 64 = 0) (hpos : 0 < TS) (hle : TS ≤ 8192) :
    decodeRjmpAt ((TS - 2) / 2) (calculateTrampoline TS lo hi).1
        (calculateTrampoline TS lo hi).2 = decodeRjmpAt 0 lo hi
      ∧ (calculateTrampoline TS lo hi).2 >>> 4 = 0xC := by
  have e1 : (cNot ((TS : Int) - ((((((hi <<< 8) + lo + 1) &&& 0xFFF) <<< 1 : Nat)) : Int))).fdiv 2
      = ((((hi <<< 8) + lo + 1) &&& 0xFFF : Nat) : Int) - ((TS / 2 : Nat) : Int) - 1 := by
    rw [Int.fdiv_eq_ediv _ (by norm_num), cNot, and_4095, Nat.shiftLeft_eq]
    push_cast
    omega
  have hu : (((hi <<< 8) + lo + 1) &&& 0xFFF : Nat) < 4096 := by
    rw [and_4095]
    exact Nat.mod_lt _ (by norm_num)
  generalize hu_def : (((hi <<< 8) + lo + 1) &&& 0xFFF : Nat) = u at e1 hu
  have e2 : ((((((u : Int) - ((TS / 2 : Nat) : Int) - 1) % 65536).toNat + 1) % 65536)
      = (((u : Int) - ((TS / 2 : Nat) : Int)) % 65536).toNat) := by omega
  have e3 : ((((u : Int) - ((TS / 2 : Nat) : Int)) % 65536).toNat) &&& 0xFF
      = (u + 4096 - TS / 2) % 4096 % 256 := by
    rw [and_255]
    omega
  have e4 : (((((u : Int) - ((TS / 2 : Nat) : Int)) % 65536).toNat) &&& 0xF00) >>> 8
      = (u + 4096 - TS / 2) % 4096 / 256 := by
    rw [and_f00_shift]
    omega
  have ecalc : calculateTrampoline TS lo hi =
      ((u + 4096 - TS / 2) % 4096 % 256, (u + 4096 - TS / 2) % 4096 / 256 + 0xC0) := by
    simp only [calculateTrampoline]
    rw [hu_def, e1, e2, e3, e4]
  rw [ecalc]
  have hm : (u + 4096 - TS / 2) % 4096 < 4096 := Nat.mod_lt _ (by norm_num)
  constructor
  · simp only [decodeRjmpAt, Nat.shiftLeft_eq, and_4095]
    rw [← hu_def, and_4095]
    omega
  · rw [Nat.shiftRight_eq_div_pow]
    omega

/-- Witness for C4: `TIMONEL_START = 6400`, reset vector `rjmp` bytes
(0x63, 0xC0), i.e. a jump to byte address 200. -/
theorem tml_C4_witness :
    decodeRjmpAt ((6400 - 2) / 2) (calculateTrampoline 6400 0x63 0xC0).1
        (calculateTrampoline 6400 0x63 0xC0).2 = decodeRjmpAt 0 0x63 0xC0
      ∧ (calculateTrampoline 6400 0x63 0xC0).2 >>> 4 = 0xC :=
  tml_C4_trampoline_roundtrip 6400 0x63 0xC0 (by decide) (by decide) (by decide) (by decide)
    (by decide)

/-- C3: a commit (`FlashPage`) whose target address is at or above
`TIMONEL_START` is a no-op: the whole state — in particular every flash
memory cell, at and above that address as well as below it — is unchanged,
and the call returns normally (the function is total), so the caller
proceeds to acknowledge as usual. -/
theorem tml_C3_bootloader_commit_noop (TS : Nat) (s : TmlState) (addr : Nat)
    (h64 : TS % 64 = 0) (hpos : 0 < TS) (haddr : TS ≤ addr) :
    flashPage TS s addr = s := by
  have hpb : TS ≤ pageBase addr := by
    unfold pageBase pageSize
    omega
  have h0 : ¬pageBase addr = 0 := by omega
  have hT : ¬pageBase addr = TS - pageSize := by
    unfold pageSize
    omega
  simp only [flashPage]
  rw [if_neg h0, if_neg hT, if_pos hpb]

/-- Witness for C3: `TIMONEL_START = 6400`, commit targeted at 7000. -/
theorem tml_C3_witness : flashPage 6400 (initState flashFF) 7000 = initState flashFF :=
  tml_C3_bootloader_commit_noop 6400 (initState flashFF) 7000 (by decide) (by decide) (by decide)

/-- The operation log of `FlashPage` grows by nothing (bootloader-region
discard), by the single commit of the masked page, or by that commit plus the
trampoline-page write triggered by a page-0 commit. -/
theorem flashPage_log (TS : Nat) (s : TmlState) (addr : Nat) :
    (flashPage TS s addr).log = s.log
    ∨ (flashPage TS s addr).log = s.log ++ [FlashOp.write (pageBase addr)]
    ∨ (flashPage TS s addr).log =
        (s.log ++ [FlashOp.write (pageBase addr)]) ++ [FlashOp.write (TS - pageSize)] := by
  simp only [flashPage, createTrampoline, flashRawS]
  repeat' split
  all_goals first
    | (left; rfl)
    | (right; left; rfl)
    | (right; right; rfl)

/-- C10: every physical flash-controller operation issued by `FlashPage`
targets either the page-aligned base address obtained by clearing the low
bits of its argument, or the (page-aligned) trampoline page; in particular no
operation is issued at an address that is not a page boundary, even when the
argument (`FlashPageAddress`) is unaligned. -/
theorem tml_C10_page_aligned_writes (TS : Nat) (s : TmlState) (addr : Nat)
    (h64 : TS % 64 = 0) :
    ∀ op ∈ (flashPage TS s addr).log,
      op ∈ s.log ∨ (op.addr % pageSize = 0 ∧
        (op = FlashOp.write (pageBase addr) ∨ op = FlashOp.write (TS - pageSize))) := by
  have hb : pageBase addr % pageSize = 0 := by
    unfold pageBase pageSize
    omega
  have ht : (TS - pageSize) % pageSize = 0 := by
    unfold pageSize at *
    omega
  intro op hop
  rcases flashPage_log TS s addr with h | h | h <;> rw [h] at hop
  · exact Or.inl hop
  · rcases List.mem_append.1 hop with h1 | h1
    · exact Or.inl h1
    · have : op = FlashOp.write (pageBase addr) := by simpa using h1
      subst this
      exact Or.inr ⟨hb, Or.inl rfl⟩
  · rcases List.mem_append.1 hop with h1 | h1
    · rcases List.mem_append.1 h1 with h2 | h2
      · exact Or.inl h2
      · have : op = FlashOp.write (pageBase addr) := by simpa using h2
        subst this
        exact Or.inr ⟨hb, Or.inl rfl⟩
    · have : op = FlashOp.write (TS - pageSize) := by simpa using h1
      subst this
      exact Or.inr ⟨ht, Or.inr rfl⟩

/-- Witness for C10: `TIMONEL_START = 6400`, unaligned commit argument 131;
the sole issued operation is the write at page base 128. -/
theorem tml_C10_witness :
    FlashOp.write 128 ∈ (initState flashFF).log ∨
      ((FlashOp.write 128).addr % pageSize = 0 ∧
        (FlashOp.write 128 = FlashOp.write (pageBase 131) ∨
          FlashOp.write 128 = FlashOp.write (6400 - pageSize))) :=
  tml_C10_page_aligned_writes 6400 (initState flashFF) 131 (by decide) (FlashOp.write 128)
    (by decide)

/-- C9 (amended): `SetPageAddress` stores the raw 16-bit big-endian address
from the frame into `FlashPageAddress` without any masking or alignment
check; the stored value is page-aligned only if the sent address happened to
be. -/
theorem tml_C9_setpageaddr_raw (TS : Nat) (s : TmlState) (a1 a2 : Nat)
    (h1 : a1 < 256) (h2 : a2 < 256) :
    (requestEvent TS s [STPGADDR, a1, a2]).1.flashPageAddr = (a1 <<< 8) + a2 := by
  simp only [requestEvent, cmdAt, GETTMNLV, EXITTMNL, DELFLASH, STPGADDR, WRITPAGE, INITTINY]
  norm_num [List.getD]
  rw [Nat.shiftLeft_eq]
  omega

/-- Witness for C9 (amended): after `SetPageAddress(0, 3)` the flash page
address is the raw value 3. -/
theorem tml_C9_witness :
    (requestEvent 6400 (initState flashFF) [STPGADDR, 0, 3]).1.flashPageAddr = (0 <<< 8) + 3 :=
  tml_C9_setpageaddr_raw 6400 (initState flashFF) 0 3 (by decide) (by decide)

/-- Counterexample for C9 as stated: the state reached by one pass delivering
`SetPageAddress(0, 3)` is reachable, and its `FlashPageAddress` is 3, which is
not word-aligned to the page size. -/
theorem tml_C9_cex :
    Reachable 6400 flashFF (step 6400 (some [STPGADDR, 0, 3]) (initState flashFF))
    ∧ (step 6400 (some [STPGADDR, 0, 3]) (initState flashFF)).flashPageAddr = 3
    ∧ (step 6400 (some [STPGADDR, 0, 3]) (initState flashFF)).flashPageAddr % pageSize ≠ 0 :=
  ⟨Reachable.next _ Reachable.init, by decide, by decide⟩

/-- Bit `i` of the constant mask `0xF7` (`~(1 << SR_APP_READY)` on a byte). -/
theorem testBit_247 (i : Nat) : (247 : Nat).testBit i = decide (i ≠ 3 ∧ i < 8) := by
  by_cases h : i < 8
  · interval_cases i <;> decide
  · rw [Nat.testBit_lt_two_pow]
    · simp
      omega
    · calc (247 : Nat) < 2 ^ 8 := by norm_num
        _ ≤ 2 ^ i := Nat.pow_le_pow_right (by norm_num) (by omega)

/-- Bit `i` of the constant mask `4` (`1 << SR_DEL_FLASH`). -/
theorem testBit_4 (i : Nat) : (4 : Nat).testBit i = decide (i = 2) := by
  by_cases h : i < 8
  · interval_cases i <;> decide
  · rw [Nat.testBit_lt_two_pow]
    · simp
      omega
    · calc (4 : Nat) < 2 ^ 8 := by norm_num
        _ ≤ 2 ^ i := Nat.pow_le_pow_right (by norm_num) (by omega)

/-- C2: a `WRITPAGE` frame is always answered with the ack byte followed by
the 8-bit running sum of its eight data bytes; whenever that sum differs from
the trailing checksum byte, the dispatcher clears `ApplicationReady` and sets
`DeleteFlashRequested` while leaving every other status flag unchanged —
regardless of the current buffer state, which is universally quantified —
and when the sums match the status register is completely unchanged. -/
theorem tml_C2_writpage_checksum (TS : Nat) (s : TmlState)
    (d1 d2 d3 d4 d5 d6 d7 d8 chk : Nat) :
    (requestEvent TS s [WRITPAGE, d1, d2, d3, d4, d5, d6, d7, d8, chk]).2 =
        [255 - WRITPAGE, (d1 + d2 + d3 + d4 + d5 + d6 + d7 + d8) % 256]
      ∧ ((d1 + d2 + d3 + d4 + d5 + d6 + d7 + d8) % 256 ≠ chk →
          (requestEvent TS s [WRITPAGE, d1, d2, d3, d4, d5, d6, d7, d8,
              chk]).1.statusRegister.testBit SR_APP_READY = false
          ∧ (requestEvent TS s [WRITPAGE, d1, d2, d3, d4, d5, d6, d7, d8,
              chk]).1.statusRegister.testBit SR_DEL_FLASH = true
          ∧ ∀ i, i < 8 → i ≠ SR_APP_READY → i ≠ SR_DEL_FLASH →
              (requestEvent TS s [WRITPAGE, d1, d2, d3, d4, d5, d6, d7, d8,
                chk]).1.statusRegister.testBit i = s.statusRegister.testBit i)
      ∧ ((d1 + d2 + d3 + d4 + d5 + d6 + d7 + d8) % 256 = chk →
          (requestEvent TS s [WRITPAGE, d1, d2, d3, d4, d5, d6, d7, d8,
            chk]).1.statusRegister = s.statusRegister) := by
  have hr : List.range RXDATASIZE = [0, 1, 2, 3, 4, 5, 6, 7] := rfl
  simp only [requestEvent, cmdAt, hr, List.foldl, writChunkStep, GETTMNLV, EXITTMNL, DELFLASH,
    STPGADDR, WRITPAGE, INITTINY, RXDATASIZE, SR_APP_READY, SR_DEL_FLASH]
  norm_num [List.getD]
  refine ⟨?_, fun heq hne => absurd heq hne⟩
  intro hne
  rw [if_neg hne]
  refine ⟨?_, ?_, ?_⟩
  · simp [Nat.testBit_or, Nat.testBit_and, testBit_247, testBit_4]
  · simp [Nat.testBit_or, Nat.testBit_and, testBit_247, testBit_4]
  · intro i hi8 hi3 hi2
    simp [Nat.testBit_or, Nat.testBit_and, testBit_247, testBit_4, hi3, hi2, hi8]

/-- Witness for C2: eight data bytes of 7 (sum 56) with wrong trailing
checksum 0, dispatched in the power-on state. -/
theorem tml_C2_witness :
    (requestEvent 6400 (initState flashFF) [WRITPAGE, 7, 7, 7, 7, 7, 7, 7, 7, 0]).2 =
        [255 - WRITPAGE, (7 + 7 + 7 + 7 + 7 + 7 + 7 + 7) % 256]
      ∧ (requestEvent 6400 (initState flashFF) [WRITPAGE, 7, 7, 7, 7, 7, 7, 7, 7,
          0]).1.statusRegister.testBit SR_APP_READY = false
      ∧ (requestEvent 6400 (initState flashFF) [WRITPAGE, 7, 7, 7, 7, 7, 7, 7, 7,
          0]).1.statusRegister.testBit SR_DEL_FLASH = true :=
  ⟨(tml_C2_writpage_checksum 6400 (initState flashFF) 7 7 7 7 7 7 7 7 0).1,
    ((tml_C2_writpage_checksum 6400 (initState flashFF) 7 7 7 7 7 7 7 7 0).2.1
      (by decide)).1,
    ((tml_C2_writpage_checksum 6400 (initState flashFF) 7 7 7 7 7 7 7 7 0).2.1
      (by decide)).2.1⟩

/-- `FlashPage` leaves the status register, the fill index, all three timers
and the handed-off flag untouched. -/
theorem flashPage_untouched (TS : Nat) (s : TmlState) (a : Nat) :
    (flashPage TS s a).statusRegister = s.statusRegister
    ∧ (flashPage TS s a).pageIX = s.pageIX
    ∧ (flashPage TS s a).ledToggleTimer = s.ledToggleTimer
    ∧ (flashPage TS s a).i2cDly = s.i2cDly
    ∧ (flashPage TS s a).exitDly = s.exitDly
    ∧ (flashPage TS s a).handedOff = s.handedOff := by
  simp only [flashPage, createTrampoline, flashRawS]
  repeat' split
  all_goals simp

/-- `FlashPage` leaves `flashPageAddr` untouched unless the commit targets
page 0. -/
theorem flashPage_addr_of_ne (TS : Nat) (s : TmlState) (a : Nat) (h : pageBase a ≠ 0) :
    (flashPage TS s a).flashPageAddr = s.flashPageAddr := by
  simp only [flashPage, createTrampoline, flashRawS]
  rw [if_neg h, if_neg h]
  repeat' split
  all_goals simp

/-- After a page-0 commit `FlashPage` resets `flashPageAddr` to `RESET_PAGE`. -/
theorem flashPage_addr_of_zero (TS : Nat) (s : TmlState) (a : Nat) (h : pageBase a = 0)
    (hpos : 0 < TS) :
    (flashPage TS s a).flashPageAddr = 0 := by
  simp only [flashPage, createTrampoline, flashRawS]
  rw [if_pos h, if_pos h, if_neg (by omega : ¬ TS ≤ pageBase a)]
  repeat' split
  all_goals simp

/-- The erase loop of `DeleteFlash` touches only the flash contents and the
operation log. -/
theorem eraseLoop_untouched (TS : Nat) :
    ∀ fuel address s,
      (eraseLoop TS fuel address s).statusRegister = s.statusRegister
      ∧ (eraseLoop TS fuel address s).pageIX = s.pageIX
      ∧ (eraseLoop TS fuel address s).ledToggleTimer = s.ledToggleTimer
      ∧ (eraseLoop TS fuel address s).i2cDly = s.i2cDly
      ∧ (eraseLoop TS fuel address s).exitDly = s.exitDly
      ∧ (eraseLoop TS fuel address s).handedOff = s.handedOff
      ∧ (eraseLoop TS fuel address s).flashPageAddr = s.flashPageAddr
      ∧ (eraseLoop TS fuel address s).pageBuffer = s.pageBuffer := by
  intro fuel
  induction fuel with
  | zero => intro address s; simp [eraseLoop]
  | succ n ih =>
      intro address s
      simp only [eraseLoop]
      split
      · simpa [erasePageS] using ih (address + pageSize) (erasePageS address s)
      · simp

/-- `DeleteFlash` leaves the status register, the fill index, the timers, the
handed-off flag and `flashPageAddr` untouched. -/
theorem deleteFlash_untouched (TS : Nat) (s : TmlState) :
    (deleteFlash TS s).statusRegister = s.statusRegister
    ∧ (deleteFlash TS s).pageIX = s.pageIX
    ∧ (deleteFlash TS s).ledToggleTimer = s.ledToggleTimer
    ∧ (deleteFlash TS s).i2cDly = s.i2cDly
    ∧ (deleteFlash TS s).exitDly = s.exitDly
    ∧ (deleteFlash TS s).handedOff = s.handedOff
    ∧ (deleteFlash TS s).flashPageAddr = s.flashPageAddr := by
  simp only [deleteFlash]
  have hb : pageBase pageSize ≠ 0 := by decide
  have h1 := eraseLoop_untouched TS (TS / pageSize) pageSize
      (flashPage TS (flashRawS 0 (erasePageS 0
        { s with pageBuffer := fixResetVector TS (clearPageBuffer s.pageBuffer) })) pageSize)
  have h2 := flashPage_untouched TS (flashRawS 0 (erasePageS 0
        { s with pageBuffer := fixResetVector TS (clearPageBuffer s.pageBuffer) })) pageSize
  have h3 := flashPage_addr_of_ne TS (flashRawS 0 (erasePageS 0
        { s with pageBuffer := fixResetVector TS (clearPageBuffer s.pageBuffer) })) pageSize hb
  simp only [flashRawS, erasePageS] at h1 h2 h3
  simp only [flashRawS, erasePageS]
  refine ⟨?_, ?_, ?_, ?_, ?_, ?_, ?_⟩ <;> simp_all

/-- `DeleteFlash` does not modify the status register. -/
theorem deleteFlash_sr (TS : Nat) (s : TmlState) :
    (deleteFlash TS s).statusRegister = s.statusRegister := (deleteFlash_untouched TS s).1

/-- `FlashPage` does not modify the status register. -/
theorem flashPage_sr (TS : Nat) (s : TmlState) (a : Nat) :
    (flashPage TS s a).statusRegister = s.statusRegister := (flashPage_untouched TS s a).1

/-- The supervisor tick body does not modify the status register. -/
theorem tickBody_sr (TS : Nat) (s : TmlState) :
    (tickBody TS s).statusRegister = s.statusRegister := by
  simp only [tickBody, commitCheck]
  repeat' split
  all_goals simp [deleteFlash_sr, flashPage_sr]

/-- The phase-dependent half of a main-loop pass does not modify the status
register. -/
theorem phasePass_sr (TS : Nat) (s : TmlState) :
    (phasePass TS s).statusRegister = s.statusRegister := by
  simp only [phasePass]
  repeat' split
  all_goals simp [tickBody_sr]

/-- No command ever clears a set init-handshake flag. -/
theorem requestEvent_init_bits (TS : Nat) (s : TmlState) (cmd : List Nat) (i : Nat)
    (hi : i = 0 ∨ i = 1) (hb : s.statusRegister.testBit i = true) :
    (requestEvent TS s cmd).1.statusRegister.testBit i = true := by
  rcases hi with rfl | rfl <;>
    (simp only [requestEvent]
     repeat' split
     all_goals simp_all [Nat.testBit_or, Nat.testBit_and, testBit_247, testBit_4])

/-- No main-loop pass ever clears a set init-handshake flag. -/
theorem step_init_bits (TS : Nat) (rx : Option (List Nat)) (s : TmlState) (i : Nat)
    (hi : i = 0 ∨ i = 1) (hb : s.statusRegister.testBit i = true) :
    (step TS rx s).statusRegister.testBit i = true := by
  have hp : (phasePass TS s).statusRegister.testBit i = true := by
    rw [phasePass_sr]
    exact hb
  simp only [step]
  split
  · exact hb
  · split
    · exact hp
    · cases rx with
      | none => exact hp
      | some cmd => exact requestEvent_init_bits TS _ cmd i hi hp

/-- A pass without bus activity either does nothing (control already handed
off) or runs the phase-dependent half only. -/
theorem step_none (TS : Nat) (s : TmlState) :
    step TS none s = if s.handedOff = true then s else phasePass TS s := by
  simp only [step]
  split
  · rfl
  · split <;> rfl

/-- The two-bit init mask of the main loop's phase test, as a numeral. -/
theorem sr_mask_3 : (1 <<< SR_INIT_1) + (1 <<< SR_INIT_2) = 3 := rfl

/-- An uninitialized pass below the toggle threshold only advances the LED
toggle timer. -/
theorem phasePass_uninit_slow (TS : Nat) (s : TmlState)
    (hsr : ¬ s.statusRegister &&& 3 = 3) (ht : s.ledToggleTimer < 65535) :
    phasePass TS s = { s with ledToggleTimer := s.ledToggleTimer + 1 } := by
  simp only [phasePass, sr_mask_3, TOGGLETIME]
  rw [if_neg hsr, if_neg (by omega : ¬ s.ledToggleTimer ≥ 65535),
    Nat.mod_eq_of_lt (by omega)]

/-- An uninitialized pass at the toggle threshold with a nonzero countdown
resets the timer and decrements the exit countdown. -/
theorem phasePass_uninit_toggle (TS : Nat) (s : TmlState)
    (hsr : ¬ s.statusRegister &&& 3 = 3) (ht : s.ledToggleTimer ≥ 65535)
    (hd : s.exitDly ≠ 0) :
    phasePass TS s = { s with ledToggleTimer := 0, exitDly := s.exitDly - 1 } := by
  simp only [phasePass, sr_mask_3, TOGGLETIME]
  rw [if_neg hsr, if_pos ht, if_neg hd]

/-- An uninitialized pass at the toggle threshold with an expired countdown
runs the application (`exitDly`, a byte, wraps to 255 on the post-decrement). -/
theorem phasePass_uninit_exit (TS : Nat) (s : TmlState)
    (hsr : ¬ s.statusRegister &&& 3 = 3) (ht : s.ledToggleTimer ≥ 65535)
    (hd : s.exitDly = 0) :
    phasePass TS s = { s with ledToggleTimer := 0, exitDly := 255, handedOff := true } := by
  simp only [phasePass, sr_mask_3, TOGGLETIME]
  rw [if_neg hsr, if_pos ht, if_pos hd]

/-- An initialized pass with a nonzero I2C delay only decrements it. -/
theorem phasePass_idle_slow (TS : Nat) (s : TmlState)
    (hsr : s.statusRegister &&& 3 = 3) (hd : s.i2cDly ≠ 0) :
    phasePass TS s = { s with i2cDly := s.i2cDly - 1 } := by
  simp only [phasePass, sr_mask_3]
  rw [if_pos hsr, if_neg hd]

/-- An initialized pass with an expired I2C delay runs the tick body (the
post-decrement leaves 65535 in `i2cDly` on entry). -/
theorem phasePass_idle_fire (TS : Nat) (s : TmlState)
    (hsr : s.statusRegister &&& 3 = 3) (hd : s.i2cDly = 0) :
    phasePass TS s = tickBody TS { s with i2cDly := 65535 } := by
  simp only [phasePass, sr_mask_3]
  rw [if_pos hsr, if_pos hd]

/-- Idle passes compose additively. -/
theorem runNone_add (TS : Nat) (a b : Nat) (s : TmlState) :
    runNone TS (a + b) s = runNone TS b (runNone TS a s) := by
  induction a generalizing s with
  | zero => rw [Nat.zero_add]; rfl
  | succ n ih =>
      have h : n + 1 + b = (n + b) + 1 := by omega
      rw [h]
      show runNone TS (n + b) (step TS none s) = _
      rw [ih]
      rfl

/-- A single idle pass is a step. -/
theorem runNone_one (TS : Nat) (s : TmlState) : runNone TS 1 s = step TS none s := rfl

/-- In the uninitialized phase, `k` quiet passes below the toggle threshold
only advance the LED toggle timer by `k`. -/
theorem runNone_uninit (TS : Nat) (k : Nat) :
    ∀ s : TmlState, s.handedOff = false → ¬ s.statusRegister &&& 3 = 3 →
      s.ledToggleTimer + k ≤ 65535 →
      runNone TS k s = { s with ledToggleTimer := s.ledToggleTimer + k } := by
  induction k with
  | zero => intro s hho hsr ht; show s = _; rfl
  | succ n ih =>
      intro s hho hsr ht
      show runNone TS n (step TS none s) = _
      rw [step_none, if_neg (by rw [hho]; exact Bool.false_ne_true),
        phasePass_uninit_slow TS s hsr (by omega)]
      rw [ih { s with ledToggleTimer := s.ledToggleTimer + 1 } hho hsr (by simp; omega)]
      congr 1
      simp
      omega

/-- In the initialized phase, `k ≤ i2cDly` quiet passes only decrement the
I2C delay by `k`. -/
theorem runNone_idle (TS : Nat) (k : Nat) :
    ∀ s : TmlState, s.handedOff = false → s.statusRegister &&& 3 = 3 → k ≤ s.i2cDly →
      runNone TS k s = { s with i2cDly := s.i2cDly - k } := by
  induction k with
  | zero => intro s hho hsr hk; show s = _; rfl
  | succ n ih =>
      intro s hho hsr hk
      show runNone TS n (step TS none s) = _
      rw [step_none, if_neg (by rw [hho]; exact Bool.false_ne_true),
        phasePass_idle_slow TS s hsr (by omega)]
      rw [ih { s with i2cDly := s.i2cDly - 1 } hho hsr (by simp; omega)]
      congr 1
      simp
      omega

/-- One full toggle period (65536 quiet uninitialized passes from a reset
timer) decrements the exit countdown once. -/
theorem runNone_fullPeriod (TS : Nat) (s : TmlState) (hho : s.handedOff = false)
    (hsr : ¬ s.statusRegister &&& 3 = 3) (ht : s.ledToggleTimer = 0) (hd : s.exitDly ≠ 0) :
    runNone TS 65536 s = { s with ledToggleTimer := 0, exitDly := s.exitDly - 1 } := by
  rw [show (65536 : Nat) = 65535 + 1 by norm_num, runNone_add,
    runNone_uninit TS 65535 s hho hsr (by omega), runNone_one, step_none, if_neg (by simp [hho]),
    phasePass_uninit_toggle TS { s with ledToggleTimer := s.ledToggleTimer + 65535 } hsr
      (Nat.le_add_left 65535 _) hd]

/-- `n ≤ exitDly` full toggle periods decrement the exit countdown `n` times. -/
theorem runNone_period (TS : Nat) (n : Nat) :
    ∀ s : TmlState, s.handedOff = false → ¬ s.statusRegister &&& 3 = 3 →
      s.ledToggleTimer = 0 → n ≤ s.exitDly →
      runNone TS (65536 * n) s = { s with ledToggleTimer := 0, exitDly := s.exitDly - n } := by
  induction n with
  | zero =>
      intro s hho hsr ht hn
      rw [Nat.mul_zero]
      show s = _
      obtain ⟨sr, pb, fpa, pix, tl, th, lt, dly, ed, fl, lg, ho⟩ := s
      simp only at ht
      subst ht
      rfl
  | succ n ih =>
      intro s hho hsr ht hn
      rw [show 65536 * (n + 1) = 65536 * n + 65536 by ring, runNone_add,
        ih s hho hsr ht (by omega),
        runNone_fullPeriod TS { s with ledToggleTimer := 0, exitDly := s.exitDly - n } hho hsr
          rfl (by simp; omega)]
      rfl

/-- Quiet passes preserve reachability. -/
theorem reachable_runNone (TS : Nat) (flash0 : Nat → Nat) (k : Nat) :
    ∀ s : TmlState, Reachable TS flash0 s → Reachable TS flash0 (runNone TS k s) := by
  induction k with
  | zero => intro s h; exact h
  | succ n ih => intro s h; exact ih (step TS none s) (Reachable.next none h)

/-- Oring bits in and masking with those same bits yields them all. -/
theorem or_and_self (a b : Nat) : (a ||| b) &&& b = b := by
  apply Nat.eq_of_testBit_eq
  intro i
  simp only [Nat.testBit_and, Nat.testBit_or]
  cases b.testBit i <;> simp

/-- The `INITTINY` command sets exactly `SR_INIT_1` in the status register. -/
theorem requestEvent_inittiny_sr (TS : Nat) (s : TmlState) :
    (requestEvent TS s [INITTINY]).1.statusRegister = s.statusRegister ||| 1 := by
  simp only [requestEvent, cmdAt, GETTMNLV, EXITTMNL, DELFLASH, STPGADDR, WRITPAGE, INITTINY,
    SR_INIT_1]
  norm_num [List.getD]

/-- The `GETTMNLV` command sets exactly `SR_INIT_2` in the status register. -/
theorem requestEvent_gettmnlv_sr (TS : Nat) (s : TmlState) :
    (requestEvent TS s [GETTMNLV]).1.statusRegister = s.statusRegister ||| 2 := by
  simp only [requestEvent, cmdAt, GETTMNLV, EXITTMNL, DELFLASH, STPGADDR, WRITPAGE, INITTINY,
    SR_INIT_2]
  norm_num [List.getD, Nat.shiftLeft_eq]

/-- C5 (amended): the supervisor's phase test holds exactly when both
`InitStep1` and `InitStep2` are set; neither flag, once set, is ever cleared
by any main-loop pass (with arbitrary bus input); completing `INITTINY` and
`GETTMNLV` in either order reaches the Initialized phase; and a single flag
never suffices — but the device does not stay in the pre-init phase forever:
the exit countdown keeps running there and, on expiry, transfers control to
the resident application (final conjunct; see also the counterexample). -/
theorem tml_C5_init_handshake (TS : Nat) (s : TmlState) (rx : Option (List Nat)) :
    ((s.statusRegister &&& ((1 <<< SR_INIT_1) + (1 <<< SR_INIT_2)) =
        ((1 <<< SR_INIT_1) + (1 <<< SR_INIT_2))) ↔
      (s.statusRegister.testBit SR_INIT_1 = true ∧ s.statusRegister.testBit SR_INIT_2 = true))
    ∧ (s.statusRegister.testBit SR_INIT_1 = true →
        (step TS rx s).statusRegister.testBit SR_INIT_1 = true)
    ∧ (s.statusRegister.testBit SR_INIT_2 = true →
        (step TS rx s).statusRegister.testBit SR_INIT_2 = true)
    ∧ ((requestEvent TS (requestEvent TS s [INITTINY]).1 [GETTMNLV]).1.statusRegister &&&
        ((1 <<< SR_INIT_1) + (1 <<< SR_INIT_2)) = ((1 <<< SR_INIT_1) + (1 <<< SR_INIT_2)))
    ∧ ((requestEvent TS (requestEvent TS s [GETTMNLV]).1 [INITTINY]).1.statusRegister &&&
        ((1 <<< SR_INIT_1) + (1 <<< SR_INIT_2)) = ((1 <<< SR_INIT_1) + (1 <<< SR_INIT_2)))
    ∧ (s.handedOff = false → ¬ s.statusRegister &&& 3 = 3 → s.ledToggleTimer ≥ TOGGLETIME →
        s.exitDly = 0 → (step TS none s).handedOff = true) := by
  refine ⟨?_, ?_, ?_, ?_, ?_, ?_⟩
  · rw [sr_mask_3, and_3]
    simp only [SR_INIT_1, SR_INIT_2, Nat.testBit_to_div_mod, decide_eq_true_eq]
    omega
  · exact step_init_bits TS rx s SR_INIT_1 (Or.inl rfl)
  · exact step_init_bits TS rx s SR_INIT_2 (Or.inr rfl)
  · rw [sr_mask_3, requestEvent_gettmnlv_sr, requestEvent_inittiny_sr, Nat.or_assoc,
      show (1 ||| 2 : Nat) = 3 from rfl, or_and_self]
  · rw [sr_mask_3, requestEvent_inittiny_sr, requestEvent_gettmnlv_sr, Nat.or_assoc,
      show (2 ||| 1 : Nat) = 3 from rfl]
    have h : (3 : Nat) = 2 ||| 1 := rfl
    rw [h, or_and_self, ← h]
  · intro hho hsr ht hd
    rw [step_none, if_neg (by simp [hho]), phasePass_uninit_exit TS s hsr ht hd]

/-- Witness for C5: in the state after `INITTINY` (one init flag set) the
flag persists through a pass, and the `INITTINY`/`GETTMNLV` pair completes
the handshake. -/
theorem tml_C5_witness :
    (step 6400 none sAfterInit1).statusRegister.testBit SR_INIT_1 = true
    ∧ ((requestEvent 6400 (requestEvent 6400 sAfterInit1 [INITTINY]).1
        [GETTMNLV]).1.statusRegister &&& ((1 <<< SR_INIT_1) + (1 <<< SR_INIT_2)) =
        ((1 <<< SR_INIT_1) + (1 <<< SR_INIT_2))) :=
  ⟨(tml_C5_init_handshake 6400 sAfterInit1 none).2.1 (by decide),
    (tml_C5_init_handshake 6400 sAfterInit1 none).2.2.2.1⟩

/-- Counterexample for C5 as stated: with only `InitStep1` ever set, the
device does not remain in the pre-init phase indefinitely — after the exit
countdown (a reachable sequence of 5308415 quiet passes following the
`INITTINY` pass) control is transferred to the resident application while the
phase test still fails. -/
theorem tml_C5_cex :
    Reachable 6400 flashFF (runNone 6400 5308415 sInit1)
    ∧ (runNone 6400 5308415 sInit1).handedOff = true
    ∧ ¬ (runNone 6400 5308415 sInit1).statusRegister &&&
        ((1 <<< SR_INIT_1) + (1 <<< SR_INIT_2)) =
        ((1 <<< SR_INIT_1) + (1 <<< SR_INIT_2)) := by
  have hA : sInit1 = sAfterInit1 := rfl
  have e1 : runNone 6400 65534 sAfterInit1 = { sAfterInit1 with ledToggleTimer := 65535 } :=
    runNone_uninit 6400 65534 sAfterInit1 rfl (by decide) (by decide)
  have e2 : step 6400 none { sAfterInit1 with ledToggleTimer := 65535 } =
      { sAfterInit1 with ledToggleTimer := 0, exitDly := 79 } := by
    rw [step_none, if_neg (by decide),
      phasePass_uninit_toggle 6400 { sAfterInit1 with ledToggleTimer := 65535 } (by decide)
        (by decide) (by decide)]
    rfl
  have e3 : runNone 6400 (65536 * 79) { sAfterInit1 with ledToggleTimer := 0, exitDly := 79 } =
      { sAfterInit1 with ledToggleTimer := 0, exitDly := 0 } :=
    runNone_period 6400 79 _ rfl (by decide) rfl (by decide)
  have e4 : runNone 6400 65535 { sAfterInit1 with ledToggleTimer := 0, exitDly := 0 } =
      { sAfterInit1 with ledToggleTimer := 65535, exitDly := 0 } :=
    runNone_uninit 6400 65535 _ rfl (by decide) (by decide)
  have e5 : step 6400 none { sAfterInit1 with ledToggleTimer := 65535, exitDly := 0 } =
      { sAfterInit1 with ledToggleTimer := 0, exitDly := 255, handedOff := true } := by
    rw [step_none, if_neg (by decide),
      phasePass_uninit_exit 6400 { sAfterInit1 with ledToggleTimer := 65535, exitDly := 0 }
        (by decide) (by decide) (by decide)]
  have etot : runNone 6400 5308415 sInit1 =
      { sAfterInit1 with ledToggleTimer := 0, exitDly := 255, handedOff := true } := by
    rw [hA, show (5308415 : Nat) = 65534 + (1 + (65536 * 79 + (65535 + 1))) by norm_num,
      runNone_add, runNone_add, runNone_add, runNone_add, e1,
      runNone_one 6400 { sAfterInit1 with ledToggleTimer := 65535 }, e2, e3, e4,
      runNone_one 6400 { sAfterInit1 with ledToggleTimer := 65535, exitDly := 0 }, e5]
  refine ⟨?_, ?_, ?_⟩
  · exact reachable_runNone 6400 flashFF 5308415 sInit1 (Reachable.next _ Reachable.init)
  · rw [etot]
  · rw [etot]
    decide




theorem sr_mask_16 : (1 <<< SR_EXIT_TML) = 16 := rfl

theorem sr_mask_8 : (1 <<< SR_APP_READY) = 8 := rfl

theorem sr_mask_4n : (1 <<< SR_DEL_FLASH) = 4 := rfl

theorem tickBody_run (TS : Nat) (s : TmlState) (hE : s.statusRegister &&& 24 = 24) :
    tickBody TS s = { s with handedOff := true } := by
  simp only [tickBody, sr_mask_16, sr_mask_8, sr_mask_4n, show (16 : Nat) + 8 = 24 from rfl]
  repeat' split
  all_goals first
    | rfl
    | omega
    | (simp only [deleteFlash_sr] at *; omega)

theorem tickBody_commit (TS : Nat) (s : TmlState) (hE : s.statusRegister &&& 24 ≠ 24)
    (hEx : s.statusRegister &&& 24 ≠ 16) (hD : s.statusRegister &&& 4 ≠ 4) :
    tickBody TS s = commitCheck TS s := by
  simp only [tickBody, sr_mask_16, sr_mask_8, sr_mask_4n, show (16 : Nat) + 8 = 24 from rfl]
  repeat' split
  all_goals first
    | rfl
    | omega
    | (simp only [deleteFlash_sr] at *; omega)

theorem tickBody_erase_commit (TS : Nat) (s : TmlState) (hE : s.statusRegister &&& 24 = 16)
    (hD : s.statusRegister &&& 4 ≠ 4) :
    tickBody TS s = commitCheck TS (deleteFlash TS s) := by
  simp only [tickBody, sr_mask_16, sr_mask_8, sr_mask_4n, show (16 : Nat) + 8 = 24 from rfl]
  repeat' split
  all_goals first
    | rfl
    | omega
    | (simp only [deleteFlash_sr] at *; omega)

theorem tickBody_erase_run (TS : Nat) (s : TmlState) (hE : s.statusRegister &&& 24 ≠ 24)
    (hD : s.statusRegister &&& 4 = 4) :
    tickBody TS s =
      { deleteFlash TS (if s.statusRegister &&& 24 = 16 then deleteFlash TS s else s) with
        handedOff := true } := by
  simp only [tickBody, sr_mask_16, sr_mask_8, sr_mask_4n, show (16 : Nat) + 8 = 24 from rfl]
  repeat' split
  all_goals first
    | rfl
    | omega
    | (simp only [deleteFlash_sr] at *; omega)

theorem commitCheck_pageIX (TS : Nat) (s : TmlState) :
    (commitCheck TS s).pageIX = if s.pageIX = pageSize then 0 else s.pageIX := by
  simp only [commitCheck]
  split <;> simp

theorem commitCheck_addr_full (TS : Nat) (s : TmlState) (hpos : 0 < TS)
    (hix : s.pageIX = pageSize) :
    (commitCheck TS s).flashPageAddr =
      if pageBase s.flashPageAddr = 0 then pageSize
      else (s.flashPageAddr + pageSize) % 65536 := by
  simp only [commitCheck]
  rw [if_pos hix]
  by_cases h0 : pageBase s.flashPageAddr = 0
  · rw [if_pos h0]
    simp only []
    rw [flashPage_addr_of_zero TS s s.flashPageAddr h0 hpos]
    decide
  · rw [if_neg h0]
    simp only []
    rw [flashPage_addr_of_ne TS s s.flashPageAddr h0]

theorem commitCheck_skip (TS : Nat) (s : TmlState) (hix : s.pageIX ≠ pageSize) :
    commitCheck TS s = { s with i2cDly := I2CDLYTIME } := by
  simp only [commitCheck]
  rw [if_neg hix]



theorem deleteFlash_pageIX (TS : Nat) (s : TmlState) :
    (deleteFlash TS s).pageIX = s.pageIX := (deleteFlash_untouched TS s).2.1

/-- C7 (amended): each `WRITPAGE` frame advances the fill index by exactly
the chunk size, as a byte (modulo `2 ^ 8`) and without any upper-bound check
against the page size; a supervisor tick with a full buffer (and no exit or
delete flag forcing a hand-off) resets it to 0; a tick with a non-full buffer
leaves it unchanged.  The `[0, pageSize]` bound of the original claim fails
when further chunks arrive while the buffer is already full. -/
theorem tml_C7_pageIX (TS : Nat) (s : TmlState) (cmd : List Nat)
    (hw : cmdAt cmd 0 = WRITPAGE) :
    ((requestEvent TS s cmd).1.pageIX = (s.pageIX + 8) % 256)
    ∧ (s.pageIX = pageSize → s.statusRegister &&& 24 ≠ 24 → s.statusRegister &&& 4 ≠ 4 →
        (tickBody TS s).pageIX = 0)
    ∧ (s.pageIX ≠ pageSize → (tickBody TS s).pageIX = s.pageIX) := by
  have hr : List.range RXDATASIZE = [0, 1, 2, 3, 4, 5, 6, 7] := rfl
  refine ⟨?_, ?_, ?_⟩
  · simp only [requestEvent, hw, hr, List.foldl, writChunkStep, GETTMNLV, EXITTMNL, DELFLASH,
      STPGADDR, WRITPAGE, INITTINY, RXDATASIZE]
    norm_num
  · intro hix hE hD
    by_cases hEx : s.statusRegister &&& 24 = 16
    · rw [tickBody_erase_commit TS s hEx hD, commitCheck_pageIX, deleteFlash_pageIX,
        if_pos hix]
    · rw [tickBody_commit TS s hE hEx hD, commitCheck_pageIX, if_pos hix]
  · intro hix
    by_cases hE : s.statusRegister &&& 24 = 24
    · rw [tickBody_run TS s hE]
    · by_cases hD : s.statusRegister &&& 4 = 4
      · rw [tickBody_erase_run TS s hE hD]
        show (deleteFlash TS _).pageIX = s.pageIX
        rw [deleteFlash_pageIX]
        split
        · rw [deleteFlash_pageIX]
        · rfl
      · by_cases hEx : s.statusRegister &&& 24 = 16
        · rw [tickBody_erase_commit TS s hEx hD, commitCheck_pageIX, deleteFlash_pageIX,
            if_neg hix]

        · rw [tickBody_commit TS s hE hEx hD, commitCheck_pageIX, if_neg hix]

set_option maxRecDepth 40000 in
/-- Witness for C7 (amended): a `WRITPAGE` frame in the post-`INITTINY`
state advances `pageIX` from 0 to 8, and a tick on a full buffer resets it. -/
theorem tml_C7_witness :
    ((requestEvent 6400 sAfterInit1 writFrame0).1.pageIX = (sAfterInit1.pageIX + 8) % 256)
    ∧ ((tickBody 6400 sCommit3).pageIX = 0) :=
  ⟨(tml_C7_pageIX 6400 sAfterInit1 writFrame0 (by decide)).1,
    (tml_C7_pageIX 6400 sCommit3 writFrame0 (by decide)).2.1
      (by decide) (by decide) (by decide)⟩

set_option maxRecDepth 100000 in
/-- Counterexample for C7 as stated: after nine reachable `WRITPAGE` frames
with no intervening commit, the fill index is 72, outside `[0, pageSize]`
(the ninth frame also overruns the C array `pageBuffer[64]`). -/
theorem tml_C7_cex :
    Reachable 6400 flashFF nineW ∧ nineW.pageIX = 72 ∧ ¬ nineW.pageIX ≤ pageSize := by
  refine ⟨Reachable.next _ (Reachable.next _ (Reachable.next _ (Reachable.next _ (Reachable.next _
    (Reachable.next _ (Reachable.next _ (Reachable.next _ (Reachable.next _ Reachable.init)))))))),
    ?_, ?_⟩
  · rfl
  · rw [show nineW.pageIX = 72 from rfl]
    decide

/-- C6 (amended): a supervisor tick with the buffer exactly full performs the
single commit and resets the fill index to 0; `FlashPageAddress` advances by
exactly one page size unless the commit targets page 0, in which case it is
reset to 0 by `FlashPage` and ends at exactly one page size (64) whatever
offset into page 0 it started from; a tick with a non-full buffer performs no
commit: the fill index, `FlashPageAddress` and the operation log are
unchanged, so a second tick without intervening writes cannot corrupt
`FlashPageAddress`. -/
theorem tml_C6_commit_advance (TS : Nat) (s : TmlState) (hpos : 0 < TS)
    (hE : s.statusRegister &&& 24 ≠ 24) (hEx : s.statusRegister &&& 24 ≠ 16)
    (hD : s.statusRegister &&& 4 ≠ 4) :
    (s.pageIX = pageSize →
       (tickBody TS s).pageIX = 0
       ∧ (pageBase s.flashPageAddr ≠ 0 →
           (tickBody TS s).flashPageAddr = (s.flashPageAddr + pageSize) % 65536)
       ∧ (pageBase s.flashPageAddr = 0 → (tickBody TS s).flashPageAddr = pageSize))
    ∧ (s.pageIX ≠ pageSize →
       (tickBody TS s).pageIX = s.pageIX
       ∧ (tickBody TS s).flashPageAddr = s.flashPageAddr
       ∧ (tickBody TS s).log = s.log) := by
  rw [tickBody_commit TS s hE hEx hD]
  constructor
  · intro hix
    refine ⟨?_, ?_, ?_⟩
    · rw [commitCheck_pageIX, if_pos hix]
    · intro h0
      rw [commitCheck_addr_full TS s hpos hix, if_neg h0]
    · intro h0
      rw [commitCheck_addr_full TS s hpos hix, if_pos h0]
  · intro hix
    rw [commitCheck_skip TS s hix]
    exact ⟨rfl, rfl, rfl⟩

set_option maxRecDepth 4000 in
/-- Witness for C6 (amended): committing a full buffer at aligned address 192
advances `FlashPageAddress` by exactly one page size and resets the index. -/
theorem tml_C6_witness :
    ((tickBody 6400 sCommit3).flashPageAddr = (192 + pageSize) % 65536)
    ∧ ((tickBody 6400 sCommit3).pageIX = 0 ∧ (tickBody 6400 sCommit3).log = sCommit3.log
        ∨ (tickBody 6400 sCommit3).pageIX = 0) :=
  ⟨((tml_C6_commit_advance 6400 sCommit3 (by decide) (by decide) (by decide) (by decide)).1
      (by decide)).2.1 (by decide),
    Or.inr ((tml_C6_commit_advance 6400 sCommit3 (by decide) (by decide) (by decide)
      (by decide)).1 (by decide)).1⟩

set_option maxRecDepth 200000 in
/-- Counterexample for C6 as stated: from the reachable state `preC6`
(`FlashPageAddress = 3`, buffer full), letting the I2C delay expire triggers
the commit tick, after which `FlashPageAddress` is 64 — an advance of 61, not
one page size (the commit targeted page 0 from offset 3). -/
theorem tml_C6_cex :
    Reachable 6400 flashFF (step 6400 none (runNone 6400 32758 preC6))
    ∧ (runNone 6400 32758 preC6).pageIX = 64
    ∧ (runNone 6400 32758 preC6).flashPageAddr = 3
    ∧ (step 6400 none (runNone 6400 32758 preC6)).flashPageAddr = 64 := by
  have hpre : runNone 6400 32758 preC6 = { preC6 with i2cDly := 0 } :=
    runNone_idle 6400 32758 preC6 (by decide) (by decide) (by decide)
  refine ⟨?_, ?_, ?_, ?_⟩
  · exact Reachable.next none (reachable_runNone 6400 flashFF 32758 preC6
      (Reachable.next _ (Reachable.next _ (Reachable.next _ (Reachable.next _ (Reachable.next _
        (Reachable.next _ (Reachable.next _ (Reachable.next _ (Reachable.next _
          (Reachable.next _ (Reachable.next _ Reachable.init))))))))))))
  · rw [hpre]
    decide
  · rw [hpre]
    decide
  · rw [hpre]
    decide

theorem pageBase_idem (a : Nat) : pageBase (pageBase a) = pageBase a := by
  unfold pageBase pageSize
  omega

theorem eraseLoop_flash (TS : Nat) (h64 : TS % 64 = 0) :
    ∀ fuel address s, address % 64 = 0 → TS ≤ address + 64 * fuel →
      ∀ a, (eraseLoop TS fuel address s).flash a =
        if address ≤ a ∧ a < TS then 0xFF else s.flash a := by
  intro fuel
  induction fuel with
  | zero =>
      intro address s ha hf a
      simp only [eraseLoop]
      rw [if_neg (by omega)]
  | succ n ih =>
      intro address s ha hf a
      simp only [eraseLoop]
      split
      · rename_i hlt
        rw [ih (address + pageSize) (erasePageS address s)
            (by unfold pageSize at *; omega) (by unfold pageSize at *; omega) a]
        simp only [erasePageS, pageBase, pageSize]
        by_cases h3 : address + 64 ≤ a ∧ a < TS
        · rw [if_pos h3, if_pos (by omega : address ≤ a ∧ a < TS)]
        · rw [if_neg h3]
          by_cases h4 : a / 64 * 64 = address / 64 * 64
          · rw [if_pos h4, if_pos (by omega)]
          · rw [if_neg h4, if_neg (by omega)]
      · rename_i hge
        rw [if_neg (by omega)]

theorem flashPage_flash_of_ne (TS : Nat) (s : TmlState) (a0 : Nat) (h0 : pageBase a0 ≠ 0)
    (a : Nat) (ha : pageBase a ≠ pageBase a0) :
    (flashPage TS s a0).flash a = s.flash a := by
  simp only [flashPage, createTrampoline, flashRawS, flashRawF]
  rw [if_neg h0]
  split
  · split <;> rfl
  · split <;>
      · simp only [flashRawF]
        rw [pageBase_idem, if_neg ha]

theorem deleteFlash_flash (TS : Nat) (s : TmlState) (h64 : TS % 64 = 0) (h128 : 128 ≤ TS)
    (hle : TS ≤ 8192) :
    ((deleteFlash TS s).flash 0 = (0xC000 + TS / 2 - 1) &&& 0xFF)
    ∧ ((deleteFlash TS s).flash 1 = ((0xC000 + TS / 2 - 1) >>> 8) % 256)
    ∧ (∀ a, 2 ≤ a → a < TS → (deleteFlash TS s).flash a = 0xFF)
    ∧ (∀ a, TS ≤ a → (deleteFlash TS s).flash a = s.flash a) := by
  have hbase64 : pageBase pageSize = 64 := by decide
  have hfuel : TS ≤ pageSize + 64 * (TS / pageSize) := by
    unfold pageSize
    omega
  have key : ∀ a, (deleteFlash TS s).flash a =
      if pageSize ≤ a ∧ a < TS then 0xFF
      else (flashPage TS (flashRawS 0 (erasePageS 0
        { s with pageBuffer := fixResetVector TS (clearPageBuffer s.pageBuffer) }))
          pageSize).flash a := by
    intro a
    exact eraseLoop_flash TS h64 (TS / pageSize) pageSize _ (by decide) hfuel a
  have haway : ∀ a, pageBase a ≠ 64 →
      (flashPage TS (flashRawS 0 (erasePageS 0
        { s with pageBuffer := fixResetVector TS (clearPageBuffer s.pageBuffer) }))
          pageSize).flash a =
      (flashRawS 0 (erasePageS 0
        { s with pageBuffer := fixResetVector TS (clearPageBuffer s.pageBuffer) })).flash a := by
    intro a ha
    exact flashPage_flash_of_ne TS _ pageSize (by rw [hbase64]; omega) a (by rw [hbase64]; exact ha)
  have hlow : ∀ a, a < 64 →
      (flashRawS 0 (erasePageS 0
        { s with pageBuffer := fixResetVector TS (clearPageBuffer s.pageBuffer) })).flash a =
      fixResetVector TS (clearPageBuffer s.pageBuffer) a := by
    intro a ha
    simp only [flashRawS, flashRawF, erasePageS]
    rw [if_pos (by unfold pageBase pageSize; omega)]
    have h1 : (a - pageBase a + (pageSize - 0 % pageSize)) % pageSize = a := by
      unfold pageBase pageSize
      omega
    rw [h1]
  have hhigh : ∀ a, 64 ≤ a →
      (flashRawS 0 (erasePageS 0
        { s with pageBuffer := fixResetVector TS (clearPageBuffer s.pageBuffer) })).flash a =
      s.flash a := by
    intro a ha
    simp only [flashRawS, flashRawF, erasePageS]
    rw [if_neg (by unfold pageBase pageSize; omega), if_neg (by unfold pageBase pageSize; omega)]
  refine ⟨?_, ?_, ?_, ?_⟩
  · rw [key, if_neg (by unfold pageSize; omega), haway 0 (by decide), hlow 0 (by norm_num)]
    simp [fixResetVector, upd]
  · rw [key, if_neg (by unfold pageSize; omega), haway 1 (by decide), hlow 1 (by norm_num)]
    simp [fixResetVector, upd]
  · intro a h2 hTS
    by_cases ha : a < 64
    · rw [key, if_neg (by unfold pageSize; omega),
        haway a (by unfold pageBase pageSize; omega), hlow a ha]
      simp only [fixResetVector, clearPageBuffer, upd]
      rw [if_neg (by omega), if_neg (by omega), if_pos (by unfold pageSize; omega)]
    · rw [key, if_pos (by unfold pageSize; omega)]
  · intro a hTS
    rw [key, if_neg (by unfold pageSize; omega),
      haway a (by unfold pageBase pageSize; omega), hhigh a (by omega)]



/-- C1 (amended): after `DeleteFlash` — run by the supervisor tick for
`DeleteApplication`, or for `RequestExit` with `ApplicationReady` clear,
before control is transferred — page 0 holds a valid relative jump into the
bootloader (decoding its first two bytes as an `rjmp` at address 0 yields
`TIMONEL_START`), every other byte below `TIMONEL_START` — including the
whole trampoline page, which the erase loop wipes like any other page — is
erased to `0xFF`, and nothing at or above `TIMONEL_START` is touched. -/
theorem tml_C1_delete_flash (TS : Nat) (s : TmlState) (h64 : TS % 64 = 0) (h128 : 128 ≤ TS)
    (hle : TS ≤ 8128) :
    (decodeRjmpAt 0 ((deleteFlash TS s).flash 0) ((deleteFlash TS s).flash 1) = TS
      ∧ ((deleteFlash TS s).flash 1) >>> 4 = 0xC)
    ∧ (∀ a, 2 ≤ a → a < TS → (deleteFlash TS s).flash a = 0xFF)
    ∧ (∀ a, TS ≤ a → (deleteFlash TS s).flash a = s.flash a) := by
  obtain ⟨e0, e1, eMid, eHi⟩ := deleteFlash_flash TS s h64 h128 (by omega)
  refine ⟨⟨?_, ?_⟩, eMid, eHi⟩
  · rw [e0, e1]
    simp only [decodeRjmpAt, Nat.shiftLeft_eq, and_4095, and_255, Nat.shiftRight_eq_div_pow]
    omega
  · rw [e1]
    rw [Nat.shiftRight_eq_div_pow, Nat.shiftRight_eq_div_pow]
    omega

/-- Witness for C1 (amended) at `TIMONEL_START = 6400` on an erased device. -/
theorem tml_C1_witness :
    decodeRjmpAt 0 ((deleteFlash 6400 (initState flashFF)).flash 0)
        ((deleteFlash 6400 (initState flashFF)).flash 1) = 6400
    ∧ (deleteFlash 6400 (initState flashFF)).flash 100 = 0xFF
    ∧ (deleteFlash 6400 (initState flashFF)).flash 7000 = (initState flashFF).flash 7000 :=
  ⟨(tml_C1_delete_flash 6400 (initState flashFF) (by decide) (by decide) (by decide)).1.1,
    (tml_C1_delete_flash 6400 (initState flashFF) (by decide) (by decide) (by decide)).2.1
      100 (by decide) (by decide),
    (tml_C1_delete_flash 6400 (initState flashFF) (by decide) (by decide) (by decide)).2.2
      7000 (by decide)⟩

/-- Counterexample for C1 as stated: with a valid trampoline jump `0xC005`
installed at bytes 6398 and 6399 (`TIMONEL_START = 6400`), `DeleteFlash`
erases both bytes to `0xFF` — the trampoline page is not left valid (`0xFFFF`
is not a relative-jump instruction). -/
theorem tml_C1_cex :
    (initState flashTpl).flash 6398 = 0x05
    ∧ (initState flashTpl).flash 6399 = 0xC0
    ∧ (deleteFlash 6400 (initState flashTpl)).flash 6398 = 0xFF
    ∧ (deleteFlash 6400 (initState flashTpl)).flash 6399 = 0xFF
    ∧ ((0xFF : Nat) >>> 4 ≠ 0xC) :=
  ⟨rfl, rfl,
    (deleteFlash_flash 6400 (initState flashTpl) (by decide) (by decide) (by decide)).2.2.1
      6398 (by decide) (by decide),
    (deleteFlash_flash 6400 (initState flashTpl) (by decide) (by decide) (by decide)).2.2.1
      6399 (by decide) (by decide),
    by decide⟩

theorem testBit_1 (i : Nat) : (1 : Nat).testBit i = decide (i = 0) := by
  by_cases h : i < 8
  · interval_cases i <;> decide
  · rw [Nat.testBit_lt_two_pow]
    · simp
      omega
    · calc (1 : Nat) < 2 ^ 8 := by norm_num
        _ ≤ 2 ^ i := Nat.pow_le_pow_right (by norm_num) (by omega)

theorem testBit_2 (i : Nat) : (2 : Nat).testBit i = decide (i = 1) := by
  by_cases h : i < 8
  · interval_cases i <;> decide
  · rw [Nat.testBit_lt_two_pow]
    · simp
      omega
    · calc (2 : Nat) < 2 ^ 8 := by norm_num
        _ ≤ 2 ^ i := Nat.pow_le_pow_right (by norm_num) (by omega)

theorem testBit_16 (i : Nat) : (16 : Nat).testBit i = decide (i = 4) := by
  by_cases h : i < 8
  · interval_cases i <;> decide
  · rw [Nat.testBit_lt_two_pow]
    · simp
      omega
    · calc (16 : Nat) < 2 ^ 8 := by norm_num
        _ ≤ 2 ^ i := Nat.pow_le_pow_right (by norm_num) (by omega)

theorem sr_mask_1 : (1 <<< SR_INIT_1) = 1 := rfl

theorem sr_mask_2 : (1 <<< SR_INIT_2) = 2 := rfl

theorem requestEvent_sr_inv (TS : Nat) (s : TmlState) (cmd : List Nat)
    (hlt : s.statusRegister < 256)
    (hinv : s.statusRegister.testBit 3 = false → s.statusRegister.testBit 2 = true) :
    (requestEvent TS s cmd).1.statusRegister < 256
    ∧ ((requestEvent TS s cmd).1.statusRegister.testBit 3 = false →
        (requestEvent TS s cmd).1.statusRegister.testBit 2 = true) := by
  simp only [requestEvent, sr_mask_1, sr_mask_2, sr_mask_4n, sr_mask_16]
  repeat' split
  all_goals constructor
  all_goals first
    | exact hlt
    | exact hinv
    | (exact @Nat.or_lt_two_pow _ _ 8 hlt (by decide))
    | (exact @Nat.or_lt_two_pow _ _ 8 (Nat.lt_of_le_of_lt Nat.and_le_left hlt) (by decide))
    | (intro h
       simp only [Nat.testBit_or, Bool.or_eq_false_iff, testBit_247, testBit_4, testBit_1,
         testBit_2, testBit_16, Nat.testBit_and] at h ⊢
       simp_all)

theorem step_sr_inv (TS : Nat) (rx : Option (List Nat)) (s : TmlState)
    (hlt : s.statusRegister < 256)
    (hinv : s.statusRegister.testBit 3 = false → s.statusRegister.testBit 2 = true) :
    (step TS rx s).statusRegister < 256
    ∧ ((step TS rx s).statusRegister.testBit 3 = false →
        (step TS rx s).statusRegister.testBit 2 = true) := by
  simp only [step]
  split
  · exact ⟨hlt, hinv⟩
  · split
    · rw [phasePass_sr]
      exact ⟨hlt, hinv⟩
    · cases rx with
      | none => rw [phasePass_sr]; exact ⟨hlt, hinv⟩
      | some cmd =>
          refine (requestEvent_sr_inv TS (phasePass TS s) cmd ?_ ?_) <;> rw [phasePass_sr]
          · exact hlt
          · exact hinv

theorem reachable_sr_inv (TS : Nat) (flash0 : Nat → Nat) (s : TmlState)
    (h : Reachable TS flash0 s) :
    s.statusRegister < 256
    ∧ (s.statusRegister.testBit 3 = false → s.statusRegister.testBit 2 = true) := by
  induction h with
  | init =>
      refine ⟨?_, ?_⟩
      · show (8 : Nat) < 256
        decide
      · intro hb
        exact absurd (show Nat.testBit 8 3 = false from hb) (by decide)
  | next rx h ih => exact step_sr_inv TS rx _ ih.1 ih.2

/-- C8: on a supervisor tick in a reachable state with `ExitRequested` set:
if `ApplicationReady` is clear, the flash is erased (all application bytes
below `TIMONEL_START` wiped, nothing above touched) and control is then
transferred — this relies on the reachability invariant that a cleared
`ApplicationReady` implies `DeleteFlashRequested`, since only a checksum
failure clears the former and it simultaneously sets the latter; if
`ApplicationReady` is set, control is transferred directly with the entire
flash untouched. -/
theorem tml_C8_exit_tick (TS : Nat) (flash0 : Nat → Nat) (s : TmlState)
    (hR : Reachable TS flash0 s)
    (h64 : TS % 64 = 0) (h128 : 128 ≤ TS) (hle : TS ≤ 8192)
    (hE : s.statusRegister.testBit 4 = true) :
    (s.statusRegister.testBit 3 = false →
       (tickBody TS s).handedOff = true
       ∧ (∀ a, 2 ≤ a → a < TS → (tickBody TS s).flash a = 0xFF)
       ∧ (∀ a, TS ≤ a → (tickBody TS s).flash a = s.flash a))
    ∧ (s.statusRegister.testBit 3 = true →
       (tickBody TS s).handedOff = true ∧ ∀ a, (tickBody TS s).flash a = s.flash a) := by
  obtain ⟨hlt, hinv⟩ := reachable_sr_inv TS flash0 s hR
  constructor
  · intro hA
    have hD : s.statusRegister.testBit 2 = true := hinv hA
    have h24 : s.statusRegister &&& 24 = 16 := by
      rw [and_24]
      simp only [Nat.testBit_to_div_mod, decide_eq_true_eq, decide_eq_false_iff_not] at hE hA
      omega
    have h4 : s.statusRegister &&& 4 = 4 := by
      rw [and_4]
      simp only [Nat.testBit_to_div_mod, decide_eq_true_eq] at hD
      omega
    rw [tickBody_erase_run TS s (by omega) h4, if_pos h24]
    refine ⟨rfl, ?_, ?_⟩
    · intro a h2 hTS
      show (deleteFlash TS (deleteFlash TS s)).flash a = 255
      exact (deleteFlash_flash TS (deleteFlash TS s) h64 h128 hle).2.2.1 a h2 hTS
    · intro a hTS
      show (deleteFlash TS (deleteFlash TS s)).flash a = s.flash a
      rw [(deleteFlash_flash TS (deleteFlash TS s) h64 h128 hle).2.2.2 a hTS,
        (deleteFlash_flash TS s h64 h128 hle).2.2.2 a hTS]
  · intro hA
    have h24 : s.statusRegister &&& 24 = 24 := by
      rw [and_24]
      simp only [Nat.testBit_to_div_mod, decide_eq_true_eq] at hE hA
      omega
    rw [tickBody_run TS s h24]
    exact ⟨rfl, fun a => rfl⟩

set_option maxRecDepth 40000 in
/-- Witness for C8: in the reachable state after a corrupt `WRITPAGE` frame
and `EXITTMNL`, the tick erases the flash and hands control off. -/
theorem tml_C8_witness :
    (tickBody 6400 sExitNoApp).handedOff = true
    ∧ (tickBody 6400 sExitNoApp).flash 100 = 0xFF :=
  have h := tml_C8_exit_tick 6400 flashFF sExitNoApp
    (Reachable.next _ (Reachable.next _ Reachable.init)) (by decide) (by decide) (by decide)
    (by decide)
  ⟨(h.1 (by decide)).1, (h.1 (by decide)).2.1 100 (by decide) (by decide)⟩

end Timonel
